import Mathlib

/-!
Verification of the adaptive-streaming core of the GenerateVideo repository
(`src/api_client.py`, plus the base64 step of `src/encoder.py`).

Modelling conventions:
* Python `str` values are modelled as `List Char`; Python `bytes` as `List Nat`
  (each element a byte value `< 256`).
* External libraries (the `json` module's `json.loads`, the `httpx` GET issued
  by `_download_video_from_url`, and the `re.search` call inside
  `_extract_video_from_json`) are modelled as oracle functions collected in an
  `ApiEnv`; all repository code is embedded directly.
* Raised exceptions of the embedded code are modelled with `Except`/`Option`
  result types.  Logging and progress display are side channels with no effect
  on results and are omitted.
* `str.lower`/`str.strip` are modelled on the ASCII range (HTTP headers and the
  relevant sentinels are ASCII).
-/

/-- Python `str` modelled as a list of characters. -/
abbrev Str := List Char

/-- Python `bytes` modelled as a list of byte values. -/
abbrev Bytes := List Nat

/-- `a.startswith(b)` on lists (used for both `str` and `bytes` receivers). -/
def startsWith {α : Type} [DecidableEq α] : List α → List α → Bool
  | _, [] => true
  | [], _ :: _ => false
  | c :: s, p :: ps => c = p && startsWith s ps

/-- Python's substring test `pat in s`. -/
def containsSub : Str → Str → Bool
  | [], pat => pat.isEmpty
  | s@(_ :: rest), pat => startsWith s pat || containsSub rest pat

/-- `str.lower`, modelled on the ASCII range (`Char.toLower` maps `A`–`Z`). -/
def toLowerStr (s : Str) : Str := s.map Char.toLower

/-- The ASCII whitespace characters stripped by Python's `str.strip()`. -/
def isWs (c : Char) : Bool :=
  c = ' ' || c = '\t' || c = '\n' || c = '\x0d' || c = '\x0b' || c = '\x0c'

/-- Python `str.strip()` (ASCII whitespace). -/
def strip (s : Str) : Str :=
  ((s.dropWhile isWs).reverse.dropWhile isWs).reverse

/-- Errors raised by `generate_video` and the stream parsers
(`src/errors.py`: `APIError`, `StreamingError`), with their message text. -/
inductive VideoErr where
  | api (msg : String)
  | streaming (msg : String)
deriving DecidableEq, Repr

/-- The four parsing strategies of the format classifier (spec §4.2). -/
inductive ContentClassification where
  | Binary
  | ServerSentEvents
  | NdjsonStream
  | Unknown
deriving DecidableEq, Repr

/-- The strategy dispatch of `_parse_streaming_response`
(`src/api_client.py` lines 134–152); its `content_type` argument is already
lower-cased by the caller. -/
def parseStrategy (ct : Str) : ContentClassification :=
  if containsSub ct ("octet-stream".data) || startsWith ct ("video/".data) then
    ContentClassification.Binary
  else if containsSub ct ("text/event-stream".data) then
    ContentClassification.ServerSentEvents
  else if containsSub ct ("json".data) then
    ContentClassification.NdjsonStream
  else
    ContentClassification.Unknown

/-- The classification pipeline of `generate_video`
(`src/api_client.py` line 91: `response.headers.get("content-type", "").lower()`
followed by the dispatch): `none` models a missing `content-type` header. -/
def classifyHeader (h : Option Str) : ContentClassification :=
  parseStrategy (toLowerStr (h.getD []))

/-- Case-insensitive substring match, as the spec's §4.2 table words it. -/
def ciContains (s pat : Str) : Bool :=
  containsSub (toLowerStr s) (toLowerStr pat)

/-- Case-insensitive prefix match, for the spec's "starts with video/" rule. -/
def ciStarts (s pat : Str) : Bool :=
  startsWith (toLowerStr s) (toLowerStr pat)

/-- The classifier exactly as the spec §4.2 table states it (spec-side
definition, to be compared with `classifyHeader`). -/
def classifierSpec (h : Option Str) : ContentClassification :=
  let ct := h.getD []
  if ciContains ct ("octet-stream".data) || ciStarts ct ("video/".data) then
    ContentClassification.Binary
  else if ciContains ct ("text/event-stream".data) then
    ContentClassification.ServerSentEvents
  else if ciContains ct ("json".data) then
    ContentClassification.NdjsonStream
  else
    ContentClassification.Unknown

/-- C4: for every content-type header (including a missing one) the code's
classifier agrees with the spec's ordered, case-insensitive rule table; in
particular mixed-case binary/SSE/NDJSON values and unrecognized or absent
headers classify as documented. -/
theorem classifier_matches_spec_table :
    (∀ h, classifyHeader h = classifierSpec h) ∧
    classifyHeader none = ContentClassification.Unknown ∧
    classifyHeader (some ("Application/Octet-Stream".data)) =
      ContentClassification.Binary ∧
    classifyHeader (some ("video/mp4".data)) = ContentClassification.Binary ∧
    classifyHeader (some ("TEXT/Event-Stream; charset=utf-8".data)) =
      ContentClassification.ServerSentEvents ∧
    classifyHeader (some ("application/x-ndjson".data)) =
      ContentClassification.NdjsonStream ∧
    classifyHeader (some ("application/JSON".data)) =
      ContentClassification.NdjsonStream ∧
    classifyHeader (some ("text/plain".data)) = ContentClassification.Unknown := by
  refine ⟨?_, by decide, by decide, by decide, by decide, by decide, by decide,
    by decide⟩
  intro h
  have h1 : toLowerStr ("octet-stream".data) = "octet-stream".data := by decide
  have h2 : toLowerStr ("video/".data) = "video/".data := by decide
  have h3 : toLowerStr ("text/event-stream".data) = "text/event-stream".data := by
    decide
  have h4 : toLowerStr ("json".data) = "json".data := by decide
  simp only [classifyHeader, classifierSpec, parseStrategy, ciContains, ciStarts,
    h1, h2, h3, h4]

/-- A decoded JSON value, as produced by `json.loads`.  `jbytes` is never
produced by `json.loads` but is included because `_decode_video_data` accepts
raw `bytes` values.  `jobj` models a Python dict (keys distinct). -/
inductive JValue where
  | jnull
  | jbool (b : Bool)
  | jnum (n : Int)
  | jstr (s : Str)
  | jbytes (b : Bytes)
  | jarr (xs : List JValue)
  | jobj (fields : List (Str × JValue))

/-- Dict field lookup (`field in data` / `data[field]`). -/
def jlookup : List (Str × JValue) → Str → Option JValue
  | [], _ => none
  | (k, v) :: rest, key => if k = key then some v else jlookup rest key

/-- Oracles for the external libraries called by `src/api_client.py`:
`jloads` models `json.loads` (`none` = `json.JSONDecodeError`); `httpGet`
models the `httpx` GET of `_download_video_from_url` (`none` = transport
exception, otherwise status code and body bytes); `videoSrc` models
`re.search(r"<video[^>]+src=['\x22]([^'\x22]+)['\x22]", text)`, returning the
captured group. -/
structure ApiEnv where
  jloads : Str → Option JValue
  httpGet : Str → Option (Nat × Bytes)
  videoSrc : Str → Option Str

/-- `_download_video_from_url` (`src/api_client.py` lines 487–515): status 200
returns the body bytes; any other status, or a transport exception, returns
`None` (logged, not raised). -/
def downloadVideoFromUrl (env : ApiEnv) (url : Str) : Option Bytes :=
  match env.httpGet url with
  | none => none
  | some (status, body) => if status = 200 then some body else none

/-- Value of one standard-base64 alphabet character (`A`–`Z`, `a`–`z`,
`0`–`9`, `+`, `/`); `none` for every other character. -/
def b64digit (c : Char) : Option Nat :=
  if 'A' ≤ c ∧ c ≤ 'Z' then some (c.toNat - 65)
  else if 'a' ≤ c ∧ c ≤ 'z' then some (c.toNat - 97 + 26)
  else if '0' ≤ c ∧ c ≤ '9' then some (c.toNat - 48 + 52)
  else if c = '+' then some 62
  else if c = '/' then some 63
  else none

/-- The bytes recovered from a final quad of 2 or 3 base64 digits once enough
padding has been seen. -/
def b64flush : List Nat → Bytes
  | [a, b] => [a * 4 + b / 16]
  | [a, b, e] => [a * 4 + b / 16, (b % 16) * 16 + e / 4]
  | _ => []

/-- CPython's `binascii.a2b_base64` in non-strict mode (the engine of
`base64.b64decode` called by `_decode_video_data`): invalid characters are
skipped; `=` while 2 or 3 digits are pending counts as padding, and enough
padding ends decoding (ignoring the rest); a digit resets the padding count;
a leftover quad at end of input is an error (`Incorrect padding`). -/
def b64loop : Str → Bytes → List Nat → Nat → Option Bytes
  | [], acc, quad, _ => if quad.length = 0 then some acc else none
  | c :: rest, acc, quad, pads =>
    if c = '=' then
      if 2 ≤ quad.length then
        if 4 ≤ quad.length + (pads + 1) then some (acc ++ b64flush quad)
        else b64loop rest acc quad (pads + 1)
      else b64loop rest acc quad pads
    else
      match b64digit c with
      | none => b64loop rest acc quad pads
      | some d =>
        match quad with
        | [a, b, e] =>
          b64loop rest
            (acc ++ [a * 4 + b / 16, (b % 16) * 16 + e / 4, (e % 4) * 64 + d])
            [] 0
        | _ => b64loop rest acc (quad ++ [d]) 0

/-- Python `base64.b64decode` on a `str` argument: the argument is first
ASCII-encoded (failure for any character above 127), then decoded in
non-strict mode. -/
def b64decodePy (s : Str) : Option Bytes :=
  if s.all (fun c => c.toNat ≤ 127) then b64loop s [] [] 0 else none

/-- Value of a hexadecimal digit character. -/
def hexDigit (c : Char) : Option Nat :=
  if '0' ≤ c ∧ c ≤ '9' then some (c.toNat - 48)
  else if 'a' ≤ c ∧ c ≤ 'f' then some (c.toNat - 97 + 10)
  else if 'A' ≤ c ∧ c ≤ 'F' then some (c.toNat - 65 + 10)
  else none

/-- Python `bytes.fromhex`: ASCII whitespace is skipped between bytes; each
byte is two consecutive hex digits; anything else is an error. -/
def fromhexLoop : Str → Bytes → Option Bytes
  | [], acc => some acc
  | c :: rest, acc =>
    if isWs c then fromhexLoop rest acc
    else
      match hexDigit c with
      | none => none
      | some h =>
        match rest with
        | [] => none
        | c2 :: rest2 =>
          match hexDigit c2 with
          | none => none
          | some l => fromhexLoop rest2 (acc ++ [h * 16 + l])

/-- Python `bytes.fromhex` entry point. -/
def bytesFromHex (s : Str) : Option Bytes := fromhexLoop s []

/-- `_decode_video_data` (`src/api_client.py` lines 518–544): raw bytes pass
through; a string is tried as base64, then as hex; everything else (and a
string failing both) yields `None`. -/
def decodeVideoData : JValue → Option Bytes
  | JValue.jbytes b => some b
  | JValue.jstr s =>
    match b64decodePy s with
    | some b => some b
    | none =>
      match bytesFromHex s with
      | some b => some b
      | none => none
  | _ => none

/-- The data-field names searched by `_extract_video_from_json`
(`possible_fields`, lines 400–409). -/
def possibleFields : List Str :=
  ["video".data, "data".data, "content".data, "file".data, "video_data".data,
    "video_content".data, "binary".data, "base64".data]

/-- The URL-field names searched by `_extract_video_from_json`
(`url_fields`, lines 412–419). -/
def urlFields : List Str :=
  ["url".data, "video_url".data, "download_url".data, "file_url".data,
    "uri".data, "content".data]

/-- `extract_url_from_html` (lines 421–435): non-strings never match; the
HTML `<video ... src=...>` pattern is tried first (via the `videoSrc`
oracle), then a literal `http` prefix makes the whole text the URL. -/
def extractUrlFromHtml (env : ApiEnv) : JValue → Option Str
  | JValue.jstr t =>
    match env.videoSrc t with
    | some u => some u
    | none => if startsWith t ("http".data) then some t else none
  | _ => none

/-- The URL-field loop of `_extract_video_from_json` (run over `delta`,
`message` and the top level, lines 442–448, 457–463, 471–477): the first
present field whose value is recognized as a (non-empty, by truthiness) URL
makes the function return the download result — even `None`; present fields
that are not recognized are skipped.  `some r` means the source `return`ed
`r`; `none` means the loop fell through. -/
def searchUrlFieldsIn (env : ApiEnv) (o : List (Str × JValue)) :
    List Str → Option (Option Bytes)
  | [] => none
  | f :: rest =>
    match jlookup o f with
    | none => searchUrlFieldsIn env o rest
    | some v =>
      match extractUrlFromHtml env v with
      | some u =>
        if u = [] then searchUrlFieldsIn env o rest
        else some (downloadVideoFromUrl env u)
      | none => searchUrlFieldsIn env o rest

/-- The data-field loop of `_extract_video_from_json` (lines 451–453,
466–468, 480–482): the first present field other than `content` makes the
function return its decode result — even `None`. -/
def searchDataFieldsIn (o : List (Str × JValue)) :
    List Str → Option (Option Bytes)
  | [] => none
  | f :: rest =>
    match jlookup o f with
    | some v =>
      if f = "content".data then searchDataFieldsIn o rest
      else some (decodeVideoData v)
    | none => searchDataFieldsIn o rest

/-- The search applied to one candidate sub-object (`delta`, `message`) or to
the top level: URL fields first, then data fields. -/
def searchSubObject (env : ApiEnv) (o : List (Str × JValue)) :
    Option (Option Bytes) :=
  match searchUrlFieldsIn env o urlFields with
  | some r => some r
  | none => searchDataFieldsIn o possibleFields

/-- Processing of one `choices` entry (lines 439–468): its `delta` dict is
searched, then its `message` dict.  The `none` fallbacks for non-dict
entries and non-dict `delta`/`message` values are faithful only for shapes
whose Python membership tests miss (lists, and strings not containing a
field name as a substring); shapes such as `null` or a number make
`"delta" in choice` / `field in choice["delta"]` raise `TypeError`, which
`generate_video`'s catch-all (lines 109–113) converts to `StreamingError`.
Theorems about the `choices` path therefore restrict themselves to
dict-shaped entries. -/
def searchChoice (env : ApiEnv) (choice : JValue) : Option (Option Bytes) :=
  match choice with
  | JValue.jobj c =>
    match
      (match jlookup c ("delta".data) with
       | some (JValue.jobj d) => searchSubObject env d
       | _ => none) with
    | some r => some r
    | none =>
      match jlookup c ("message".data) with
      | some (JValue.jobj m) => searchSubObject env m
      | _ => none
  | _ => none

/-- The `choices` loop (lines 438–468): entries are processed in order; the
first entry whose search `return`s ends the function. -/
def searchChoices (env : ApiEnv) : List JValue → Option (Option Bytes)
  | [] => none
  | c :: rest =>
    match searchChoice env c with
    | some r => some r
    | none => searchChoices env rest

/-- `_extract_video_from_json` (lines 390–484): the ChatGPT-style `choices`
array is searched first; if nothing was returned there, the top-level URL
fields, then the top-level data fields.  The `| _ => none` fallbacks for a
non-dict argument and a non-list `choices` value are faithful only for the
shapes whose Python membership tests or iteration miss (lists, strings
without a field name as substring); shapes that make `"choices" in data` /
`field in data` / `for choice in data["choices"]` raise `TypeError` abort
the stream via `generate_video`'s catch-all instead, so theorems restrict
themselves to dict arguments with list-shaped `choices`. -/
def extractVideoFromJson (env : ApiEnv) (data : JValue) : Option Bytes :=
  match data with
  | JValue.jobj fields =>
    match
      (match jlookup fields ("choices".data) with
       | some (JValue.jarr cs) => searchChoices env cs
       | _ => none) with
    | some r => r
    | none =>
      match searchUrlFieldsIn env fields urlFields with
      | some r => r
      | none =>
        match searchDataFieldsIn fields possibleFields with
        | some r => r
        | none => none
  | _ => none

/-- Python `text.split("\n")`: always returns at least one segment; segments
contain no newline. -/
def splitNl : Str → List Str
  | [] => [[]]
  | c :: rest =>
    if c = '\n' then [] :: splitNl rest
    else
      match splitNl rest with
      | [] => [[c]]
      | l :: ls => (c :: l) :: ls

/-- The accumulator loop of `_parse_binary_stream` (lines 155–174): chunks are
appended in arrival order; the result is their concatenation. -/
def parseBinaryLoop : List Bytes → List Bytes → List Bytes
  | [], acc => acc
  | c :: rest, acc => parseBinaryLoop rest (acc ++ [c])

/-- `_parse_binary_stream` (lines 155–174): collect every byte chunk, then
join. -/
def parseBinaryStream (chunks : List Bytes) : Bytes :=
  (parseBinaryLoop chunks []).flatten

/-- The empty-payload check of `generate_video` (lines 97–98): falsy (empty)
parsed data raises `StreamingError`, otherwise the bytes are returned. -/
def checkVideoData (v : Bytes) : Except VideoErr Bytes :=
  if v = [] then Except.error (VideoErr.streaming "No video data received from API")
  else Except.ok v

/-- One complete SSE line (lines 195–224): strip; ignore lines without the
`data:` prefix; strip the remainder; ignore the `[DONE]` sentinel; parse the
remainder as JSON (a failure is logged and skipped); hand the value to the
extractor; append the extracted bytes when truthy (non-empty). -/
def sseHandleLine (env : ApiEnv) (line : Str) (chunks : List Bytes) :
    List Bytes :=
  let l := strip line
  if startsWith l ("data:".data) then
    let dataStr := strip (l.drop 5)
    if dataStr = "[DONE]".data then chunks
    else
      match env.jloads dataStr with
      | none => chunks
      | some data =>
        match extractVideoFromJson env data with
        | some vc => if vc = [] then chunks else chunks ++ [vc]
        | none => chunks
  else chunks

/-- One complete NDJSON line (lines 249–262): strip; skip blank lines; parse
as JSON (a failure is logged and skipped); extract; append when truthy. -/
def jsonHandleLine (env : ApiEnv) (line : Str) (chunks : List Bytes) :
    List Bytes :=
  let l := strip line
  if l = [] then chunks
  else
    match env.jloads l with
    | none => chunks
    | some data =>
      match extractVideoFromJson env data with
      | some vc => if vc = [] then chunks else chunks ++ [vc]
      | none => chunks

/-- Sequential processing of a batch of complete lines by a per-line
handler. -/
def processLines (handle : Str → List Bytes → List Bytes) :
    List Str → List Bytes → List Bytes
  | [], chunks => chunks
  | l :: ls, chunks => processLines handle ls (handle l chunks)

/-- The shared chunk loop of `_parse_sse_stream` and `_parse_json_stream`
(lines 188–224 and 243–262): append each text chunk to the buffer, split on
newline, keep the final (possibly incomplete) segment as the new buffer, and
process the complete lines.  The residual buffer is returned unprocessed. -/
def feedChunks (handle : Str → List Bytes → List Bytes) :
    List Str → Str → List Bytes → Str × List Bytes
  | [], buf, chunks => (buf, chunks)
  | c :: cs, buf, chunks =>
    let lines := splitNl (buf ++ c)
    feedChunks handle cs (lines.getLastD [])
      (processLines handle lines.dropLast chunks)

/-- `_parse_sse_stream` (lines 177–229): feed the text chunks through the
line buffer; zero extracted chunks raise `StreamingError`. -/
def parseSseStream (env : ApiEnv) (chunks : List Str) : Except VideoErr Bytes :=
  let r := feedChunks (sseHandleLine env) chunks [] []
  if r.2 = [] then
    Except.error (VideoErr.streaming "No video data found in SSE stream")
  else Except.ok r.2.flatten

/-- `_parse_json_stream` (lines 232–267): same loop with the NDJSON line
handler. -/
def parseJsonStream (env : ApiEnv) (chunks : List Str) : Except VideoErr Bytes :=
  let r := feedChunks (jsonHandleLine env) chunks [] []
  if r.2 = [] then
    Except.error (VideoErr.streaming "No video data found in JSON stream")
  else Except.ok r.2.flatten

/-- The container-format signatures checked by `_parse_unknown_stream`
(lines 290–295): two MP4 `ftyp` boxes, RIFF/AVI, and the Matroska/WebM EBML
magic. -/
def videoSignatures : List Bytes :=
  [[0, 0, 0, 24, 102, 116, 121, 112, 109, 112, 52],
    [0, 0, 0, 28, 102, 116, 121, 112, 105, 115, 111],
    [82, 73, 70, 70],
    [26, 69, 223, 163]]

/-- Strict UTF-8 decoding of a byte sequence, as Python `bytes.decode("utf-8")`
(`none` = `UnicodeDecodeError`): rejects stray continuation bytes, overlong
forms, surrogates and code points above `U+10FFFF`. -/
def utf8Decode : Bytes → Option Str
  | [] => some []
  | b :: rest =>
    if b < 128 then (utf8Decode rest).map (fun s => Char.ofNat b :: s)
    else if b < 194 then none
    else if b < 224 then
      match rest with
      | b2 :: rest2 =>
        if 128 ≤ b2 ∧ b2 < 192 then
          (utf8Decode rest2).map
            (fun s => Char.ofNat ((b - 192) * 64 + (b2 - 128)) :: s)
        else none
      | [] => none
    else if b < 240 then
      match rest with
      | b2 :: b3 :: rest3 =>
        if (128 ≤ b2 ∧ b2 < 192) ∧ (128 ≤ b3 ∧ b3 < 192) ∧
            (b = 224 → 160 ≤ b2) ∧ (b = 237 → b2 < 160) then
          (utf8Decode rest3).map
            (fun s =>
              Char.ofNat ((b - 224) * 4096 + (b2 - 128) * 64 + (b3 - 128)) :: s)
        else none
      | _ => none
    else if b < 245 then
      match rest with
      | b2 :: b3 :: b4 :: rest4 =>
        if (128 ≤ b2 ∧ b2 < 192) ∧ (128 ≤ b3 ∧ b3 < 192) ∧
            (128 ≤ b4 ∧ b4 < 192) ∧ (b = 240 → 144 ≤ b2) ∧
            (b = 244 → b2 < 144) then
          (utf8Decode rest4).map
            (fun s =>
              Char.ofNat ((b - 240) * 262144 + (b2 - 128) * 4096 +
                (b3 - 128) * 64 + (b4 - 128)) :: s)
        else none
      | _ => none
    else none

/-- The seeded text-strategy loop of `_parse_unknown_stream` (lines 326–376):
identical to `feedChunks` except that each byte chunk must first be UTF-8
decoded; a decode failure raises `UnicodeDecodeError`, which the enclosing
`try` turns into the binary fallback — discarding the extracted chunks and
leaving the not-yet-consumed byte chunks (returned in `Except.error`) to that
fallback. -/
def autoTextLoop (handle : Str → List Bytes → List Bytes) :
    List Bytes → Str → List Bytes → Except (List Bytes) (List Bytes)
  | [], _, vcs => Except.ok vcs
  | c :: cs, buf, vcs =>
    match utf8Decode c with
    | none => Except.error cs
    | some t =>
      let lines := splitNl (buf ++ t)
      autoTextLoop handle cs (lines.getLastD [])
        (processLines handle lines.dropLast vcs)

/-- The stage of `_parse_unknown_stream` from the `{` check on (lines
353–387): run the seeded NDJSON attempt when the first chunk's text starts
with `{`, then the raw-binary fallback over whatever of the stream the
iterator still holds. -/
def jsonStage (env : ApiEnv) (first : Bytes) (textData : Str)
    (remaining : List Bytes) : Except VideoErr Bytes :=
  if startsWith (strip textData) ("\x7b".data) then
    match autoTextLoop (jsonHandleLine env) remaining textData [] with
    | Except.error leftover => Except.ok (first ++ leftover.flatten)
    | Except.ok vcs =>
      if vcs = [] then Except.ok first else Except.ok vcs.flatten
  else Except.ok (first ++ remaining.flatten)

/-- `_parse_unknown_stream` (lines 270–387).  An empty stream raises
`StreamingError`; a first chunk bearing a container signature (or failing
UTF-8 decoding) yields binary concatenation; a first chunk whose stripped
text starts with `data:` runs the seeded SSE attempt — on zero extracted
chunks the iterator is already exhausted, so the later stages see no
remaining chunks; otherwise the `{`/fallback stage runs on the untouched
remainder. -/
def parseUnknownStream (env : ApiEnv) (chunks : List Bytes) :
    Except VideoErr Bytes :=
  match chunks with
  | [] => Except.error (VideoErr.streaming "Empty response received")
  | first :: rest =>
    if videoSignatures.any (fun sig => startsWith first sig) then
      Except.ok (first ++ rest.flatten)
    else
      match utf8Decode first with
      | none => Except.ok (first ++ rest.flatten)
      | some textData =>
        if startsWith (strip textData) ("data:".data) then
          match autoTextLoop (sseHandleLine env) rest textData [] with
          | Except.error leftover => Except.ok (first ++ leftover.flatten)
          | Except.ok vcs =>
            if vcs = [] then jsonStage env first textData []
            else Except.ok vcs.flatten
        else jsonStage env first textData rest

/-- The base64-alphabet character of a 6-bit value. -/
def b64char (n : Nat) : Char :=
  if n < 26 then Char.ofNat (65 + n)
  else if n < 52 then Char.ofNat (97 + (n - 26))
  else if n < 62 then Char.ofNat (48 + (n - 52))
  else if n = 62 then '+'
  else '/'

/-- Python `base64.b64encode` (the encoding step of `encode_image_to_base64`,
`src/encoder.py` lines 48–49): standard alphabet, `=`-padded. -/
def b64encode : Bytes → Str
  | x :: y :: z :: rest =>
    b64char (x / 4) :: b64char ((x % 4) * 16 + y / 16) ::
      b64char ((y % 16) * 4 + z / 64) :: b64char (z % 64) :: b64encode rest
  | [x, y] =>
    [b64char (x / 4), b64char ((x % 4) * 16 + y / 16), b64char ((y % 16) * 4),
      '=']
  | [x] => [b64char (x / 4), b64char ((x % 4) * 16), '=', '=']
  | [] => []

lemma parseBinaryLoop_acc (cs : List Bytes) :
    ∀ acc, parseBinaryLoop cs acc = acc ++ cs := by
  induction cs with
  | nil => intro acc; simp [parseBinaryLoop]
  | cons c rest ih => intro acc; simp [parseBinaryLoop, ih]

/-- C3: the binary parser returns the exact concatenation of the byte chunks
in arrival order; a stream of zero chunks makes `generate_video` raise
`StreamingError` (not `APIError`); a stream whose concatenation is non-empty
is returned as-is. -/
theorem binary_parser_concat_and_empty_error :
    (∀ chunks, parseBinaryStream chunks = chunks.flatten) ∧
    checkVideoData (parseBinaryStream []) =
      Except.error (VideoErr.streaming "No video data received from API") ∧
    (∀ chunks, chunks.flatten ≠ ([] : Bytes) →
      checkVideoData (parseBinaryStream chunks) = Except.ok chunks.flatten) := by
  have hjoin : ∀ chunks, parseBinaryStream chunks = chunks.flatten := by
    intro chunks; simp [parseBinaryStream, parseBinaryLoop_acc]
  refine ⟨hjoin, by simp [hjoin, checkVideoData], ?_⟩
  intro chunks hne
  rw [hjoin, checkVideoData, if_neg hne]

/-- Witness for C3 on the spec's own example: chunks `AB`, `CD` yield
`ABCD`. -/
theorem binary_parser_concat_witness :
    checkVideoData (parseBinaryStream [[65, 66], [67, 68]]) =
      Except.ok [65, 66, 67, 68] :=
  binary_parser_concat_and_empty_error.2.2 [[65, 66], [67, 68]] (by decide)

lemma splitNl_ne_nil (t : Str) : splitNl t ≠ [] := by
  cases t with
  | nil => simp [splitNl]
  | cons c rest =>
    simp only [splitNl]
    split
    · simp
    · split <;> simp

lemma getLastD_irrel {α : Type} (l : List α) (hl : l ≠ []) (d d' : α) :
    l.getLastD d = l.getLastD d' := by
  cases l with
  | nil => exact absurd rfl hl
  | cons a t =>
    cases t with
    | nil => rfl
    | cons b u => simp only [List.getLastD_cons]

lemma getLastD_append {α : Type} (xs ys : List α) (hys : ys ≠ []) (d : α) :
    (xs ++ ys).getLastD d = ys.getLastD d := by
  induction xs generalizing d with
  | nil => rfl
  | cons x xs ih =>
    rw [List.cons_append, List.getLastD_cons, ih x]
    exact getLastD_irrel ys hys x d

lemma mem_splitNl_no_nl (t : Str) : ∀ l ∈ splitNl t, '\n' ∉ l := by
  induction t with
  | nil => intro l hl; simp [splitNl] at hl; simp [hl]
  | cons c rest ih =>
    intro l hl
    simp only [splitNl] at hl
    by_cases hc : c = '\n'
    · rw [if_pos hc] at hl
      rcases List.mem_cons.mp hl with h | h
      · simp [h]
      · exact ih l h
    · rw [if_neg hc] at hl
      rcases hrest : splitNl rest with _ | ⟨x, xs⟩
      · exact absurd hrest (splitNl_ne_nil rest)
      · rw [hrest] at hl
        rcases List.mem_cons.mp hl with h | h
        · subst h
          intro hmem
          rcases List.mem_cons.mp hmem with h' | h'
          · exact hc h'.symm
          · exact ih x (by rw [hrest]; exact List.mem_cons_self x xs) h'
        · exact ih l (by rw [hrest]; exact List.mem_cons_of_mem x h)

lemma getLastD_mem {α : Type} (l : List α) (hl : l ≠ []) (d : α) :
    l.getLastD d ∈ l := by
  induction l with
  | nil => exact absurd rfl hl
  | cons a t ih =>
    rw [List.getLastD_cons]
    cases t with
    | nil => simp
    | cons b u => exact List.mem_cons_of_mem a (ih (by simp))

lemma splitNl_getLastD_no_nl (t : Str) : '\n' ∉ (splitNl t).getLastD [] :=
  mem_splitNl_no_nl t _ (getLastD_mem _ (splitNl_ne_nil t) _)

lemma splitNl_no_nl (p : Str) (hp : '\n' ∉ p) : splitNl p = [p] := by
  induction p with
  | nil => rfl
  | cons c rest ih =>
    have hc : ¬ c = '\n' := fun h => hp (by simp [h])
    have hr : '\n' ∉ rest := fun h => hp (List.mem_cons_of_mem c h)
    simp only [splitNl, if_neg hc, ih hr]

/-- Prepend a fragment to the first segment of a (nonempty) split. -/
def consFirst (p : Str) : List Str → List Str
  | [] => [p]
  | l :: ls => (p ++ l) :: ls

lemma consFirst_ne_nil (p : Str) (ls : List Str) : consFirst p ls ≠ [] := by
  cases ls <;> simp [consFirst]

lemma splitNl_append (a b : Str) :
    splitNl (a ++ b) =
      (splitNl a).dropLast ++ consFirst ((splitNl a).getLastD []) (splitNl b) := by
  induction a with
  | nil =>
    rcases hb : splitNl b with _ | ⟨x, xs⟩
    · exact absurd hb (splitNl_ne_nil b)
    · simp [splitNl, consFirst, hb]
  | cons c rest ih =>
    rcases hrest : splitNl rest with _ | ⟨x, xs⟩
    · exact absurd hrest (splitNl_ne_nil rest)
    rcases hb : splitNl b with _ | ⟨y, ys⟩
    · exact absurd hb (splitNl_ne_nil b)
    by_cases hc : c = '\n'
    · subst hc
      cases xs with
      | nil =>
        simp [splitNl, ih, hrest, hb, consFirst, List.getLastD_cons]
      | cons x2 xs2 =>
        simp [splitNl, ih, hrest, hb, consFirst, List.getLastD_cons,
          List.dropLast_cons₂]
    · cases xs with
      | nil =>
        simp [splitNl, hc, ih, hrest, hb, consFirst, List.getLastD_cons]
      | cons x2 xs2 =>
        simp [splitNl, hc, ih, hrest, hb, consFirst, List.getLastD_cons,
          List.dropLast_cons₂]

lemma processLines_append (handle : Str → List Bytes → List Bytes)
    (l1 l2 : List Str) : ∀ cs, processLines handle (l1 ++ l2) cs =
      processLines handle l2 (processLines handle l1 cs) := by
  induction l1 with
  | nil => intro cs; rfl
  | cons l ls ih => intro cs; simp [processLines, ih]

/-- The complete lines of a text: every split segment except the final
(possibly unterminated) one. -/
def completeLines (t : Str) : List Str := (splitNl t).dropLast

lemma dropLast_append_ne {α : Type} (xs ys : List α) (hys : ys ≠ []) :
    (xs ++ ys).dropLast = xs ++ ys.dropLast := by
  induction xs with
  | nil => rfl
  | cons x xs ih =>
    cases hxs : xs ++ ys with
    | nil => exact absurd (List.append_eq_nil.mp hxs).2 hys
    | cons z zs =>
      rw [List.cons_append, hxs, List.dropLast_cons₂, ← hxs, ih,
        List.cons_append]

lemma feedChunks_eq (handle : Str → List Bytes → List Bytes) :
    ∀ (cs : List Str) (buf : Str) (acc : List Bytes), '\n' ∉ buf →
      feedChunks handle cs buf acc =
        ((splitNl (buf ++ cs.flatten)).getLastD [],
          processLines handle (splitNl (buf ++ cs.flatten)).dropLast acc) := by
  intro cs
  induction cs with
  | nil =>
    intro buf acc hbuf
    simp [feedChunks, splitNl_no_nl buf hbuf, processLines]
  | cons c cs ih =>
    intro buf acc hbuf
    have hnb : '\n' ∉ (splitNl (buf ++ c)).getLastD [] :=
      splitNl_getLastD_no_nl (buf ++ c)
    rw [feedChunks, ih _ _ hnb]
    have hsplit : splitNl (buf ++ (c :: cs).flatten) =
        (splitNl (buf ++ c)).dropLast ++
          consFirst ((splitNl (buf ++ c)).getLastD []) (splitNl cs.flatten) := by
      rw [List.flatten_cons, ← List.append_assoc, splitNl_append]
    have hseed : splitNl ((splitNl (buf ++ c)).getLastD [] ++ cs.flatten) =
        consFirst ((splitNl (buf ++ c)).getLastD []) (splitNl cs.flatten) := by
      rw [splitNl_append, splitNl_no_nl _ hnb]
      rfl
    rw [hseed, hsplit]
    simp only [Prod.mk.injEq]
    refine ⟨?_, ?_⟩
    · rw [getLastD_append _ _ (consFirst_ne_nil _ _)]
    · rw [dropLast_append_ne _ _ (consFirst_ne_nil _ _), processLines_append]

/-- C9: both line-oriented parsers process exactly the complete (newline-
terminated) lines of the stream text — the residual buffer is never handled
after stream exhaustion — and a stream whose single chunk contains no newline
(for instance one `data:` event without a trailing newline) extracts zero
chunks and raises `StreamingError`, whatever the JSON contents. -/
theorem unterminated_final_line_dropped :
    (∀ env chunks, parseSseStream env chunks =
      (let vcs := processLines (sseHandleLine env) (completeLines chunks.flatten) []
       if vcs = [] then
         Except.error (VideoErr.streaming "No video data found in SSE stream")
       else Except.ok vcs.flatten)) ∧
    (∀ env chunks, parseJsonStream env chunks =
      (let vcs := processLines (jsonHandleLine env) (completeLines chunks.flatten) []
       if vcs = [] then
         Except.error (VideoErr.streaming "No video data found in JSON stream")
       else Except.ok vcs.flatten)) ∧
    (∀ env s, '\n' ∉ s → parseSseStream env [s] =
      Except.error (VideoErr.streaming "No video data found in SSE stream")) ∧
    (∀ env s, '\n' ∉ s → parseJsonStream env [s] =
      Except.error (VideoErr.streaming "No video data found in JSON stream")) := by
  have hsse : ∀ env chunks, parseSseStream env chunks =
      (let vcs := processLines (sseHandleLine env) (completeLines chunks.flatten) []
       if vcs = [] then
         Except.error (VideoErr.streaming "No video data found in SSE stream")
       else Except.ok vcs.flatten) := by
    intro env chunks
    rw [parseSseStream, feedChunks_eq _ _ _ _ (by simp)]
    rfl
  have hjson : ∀ env chunks, parseJsonStream env chunks =
      (let vcs := processLines (jsonHandleLine env) (completeLines chunks.flatten) []
       if vcs = [] then
         Except.error (VideoErr.streaming "No video data found in JSON stream")
       else Except.ok vcs.flatten) := by
    intro env chunks
    rw [parseJsonStream, feedChunks_eq _ _ _ _ (by simp)]
    rfl
  refine ⟨hsse, hjson, ?_, ?_⟩
  · intro env s hs
    rw [hsse]
    simp [completeLines, splitNl_no_nl s hs, processLines]
  · intro env s hs
    rw [hjson]
    simp [completeLines, splitNl_no_nl s hs, processLines]

/-- All-rejecting oracles: `json.loads` always fails, the GET always fails,
the video-src regex never matches. -/
def envNone : ApiEnv where
  jloads := fun _ => none
  httpGet := fun _ => none
  videoSrc := fun _ => none

/-- Witness for C9: a single `data:` event with no trailing newline raises
`StreamingError` in the SSE parser. -/
theorem unterminated_final_line_dropped_witness :
    parseSseStream envNone [("data: 1".data)] =
      Except.error (VideoErr.streaming "No video data found in SSE stream") :=
  unterminated_final_line_dropped.2.2.1 envNone ("data: 1".data) (by decide)

lemma sseHandleLine_skip (env : ApiEnv) (bad : Str) (cs : List Bytes)
    (h1 : startsWith (strip bad) ("data:".data) = true)
    (h2 : env.jloads (strip ((strip bad).drop 5)) = none) :
    sseHandleLine env bad cs = cs := by
  simp only [sseHandleLine, h1, if_true]
  split
  · rfl
  · rw [h2]

lemma jsonHandleLine_skip (env : ApiEnv) (bad : Str) (cs : List Bytes)
    (h1 : strip bad ≠ []) (h2 : env.jloads (strip bad) = none) :
    jsonHandleLine env bad cs = cs := by
  simp only [jsonHandleLine, if_neg h1]
  rw [h2]

/-- `json.loads` oracle used in the concrete C6 streams: the line `evt` is a
ChatGPT-style event whose `delta.video` holds base64 of `hi`; the line `evt2`
is a flat object whose `data` holds base64 of `ok`; everything else (for
instance `bad` and `nj`) is malformed. -/
def envC6 : ApiEnv where
  jloads := fun s =>
    if s = "evt".data then
      some (JValue.jobj [("choices".data, JValue.jarr
        [JValue.jobj [("delta".data,
          JValue.jobj [("video".data, JValue.jstr ("aGk=".data))])]])])
    else if s = "evt2".data then
      some (JValue.jobj [("data".data, JValue.jstr ("b2s=".data))])
    else none
  httpGet := fun _ => none
  videoSrc := fun _ => none

/-- C6: in both line-oriented parsers a complete line whose payload is
malformed JSON is skipped without effect (and without raising), wherever it
occurs in the line sequence; concretely, an SSE stream with a malformed
`data:` line followed by a valid event still yields the valid event's bytes
(`hi`), and an NDJSON stream with a malformed first line and a valid second
line yields `ok`. -/
theorem malformed_json_line_skipped :
    (∀ env pre post cs bad,
      startsWith (strip bad) ("data:".data) = true →
      env.jloads (strip ((strip bad).drop 5)) = none →
      processLines (sseHandleLine env) (pre ++ bad :: post) cs =
        processLines (sseHandleLine env) (pre ++ post) cs) ∧
    (∀ env pre post cs bad,
      strip bad ≠ [] →
      env.jloads (strip bad) = none →
      processLines (jsonHandleLine env) (pre ++ bad :: post) cs =
        processLines (jsonHandleLine env) (pre ++ post) cs) ∧
    parseSseStream envC6 [("data: bad\ndata: evt\n".data)] =
      Except.ok [104, 105] ∧
    parseJsonStream envC6 [("nj\n".data), ("evt2\n".data)] =
      Except.ok [111, 107] := by
  refine ⟨?_, ?_, by rfl, by rfl⟩
  · intro env pre post cs bad h1 h2
    rw [show pre ++ bad :: post = (pre ++ [bad]) ++ post by simp,
      processLines_append, processLines_append, processLines,
      processLines, sseHandleLine_skip env bad _ h1 h2, processLines_append]
  · intro env pre post cs bad h1 h2
    rw [show pre ++ bad :: post = (pre ++ [bad]) ++ post by simp,
      processLines_append, processLines_append, processLines,
      processLines, jsonHandleLine_skip env bad _ h1 h2, processLines_append]

/-- Witness for C6: a malformed SSE `data:` line inserted before a stream's
lines leaves the processed result unchanged. -/
theorem malformed_json_line_skipped_witness :
    processLines (sseHandleLine envC6)
        ([] ++ ("data: bad".data) :: [("data: evt".data)]) [] =
      processLines (sseHandleLine envC6) ([] ++ [("data: evt".data)]) [] :=
  malformed_json_line_skipped.1 envC6 [] [("data: evt".data)] []
    ("data: bad".data) (by decide) (by rfl)

/-- C5: within a candidate object the URL-field set is searched before the
data-field set: an object with both a recognized, successfully dereferenced
`url` field and an inline `video` field yields the downloaded bytes, not the
inline ones — both at the top level (no `choices`) and inside a
`choices[0].delta` sub-object. -/
theorem url_field_priority_over_inline_data :
    (∀ env o v u bs w,
      jlookup o ("choices".data) = none →
      jlookup o ("url".data) = some v →
      extractUrlFromHtml env v = some u → u ≠ [] →
      env.httpGet u = some (200, bs) →
      jlookup o ("video".data) = some w →
      extractVideoFromJson env (JValue.jobj o) = some bs) ∧
    (∀ env o c cs d v u bs w,
      jlookup o ("choices".data) = some (JValue.jarr (JValue.jobj c :: cs)) →
      jlookup c ("delta".data) = some (JValue.jobj d) →
      jlookup d ("url".data) = some v →
      extractUrlFromHtml env v = some u → u ≠ [] →
      env.httpGet u = some (200, bs) →
      jlookup d ("video".data) = some w →
      extractVideoFromJson env (JValue.jobj o) = some bs) := by
  constructor
  · intro env o v u bs w hc hu hrec hne hget _hw
    simp only [extractVideoFromJson, hc, urlFields, searchUrlFieldsIn, hu, hrec,
      if_neg hne, downloadVideoFromUrl, hget, if_true]
  · intro env o c cs d v u bs w hc hd hu hrec hne hget _hw
    simp only [extractVideoFromJson, hc, searchChoices, searchChoice, hd,
      searchSubObject, urlFields, searchUrlFieldsIn, hu, hrec, if_neg hne,
      downloadVideoFromUrl, hget, if_true]

/-- GET oracle granting exactly one URL, used to witness C5. -/
def envC5 : ApiEnv where
  jloads := fun _ => none
  httpGet := fun u => if u = "http://v".data then some (200, [1, 2, 3]) else none
  videoSrc := fun _ => none

/-- Witness for C5: `url` pointing at a live resource beats the inline
`video` field. -/
theorem url_field_priority_over_inline_data_witness :
    extractVideoFromJson envC5
        (JValue.jobj [("url".data, JValue.jstr ("http://v".data)),
          ("video".data, JValue.jstr ("aGk=".data))]) = some [1, 2, 3] :=
  url_field_priority_over_inline_data.1 envC5
    [("url".data, JValue.jstr ("http://v".data)),
      ("video".data, JValue.jstr ("aGk=".data))]
    (JValue.jstr ("http://v".data)) ("http://v".data) [1, 2, 3]
    (JValue.jstr ("aGk=".data)) rfl rfl rfl (by decide) (by decide) rfl

/-- Remove every binding of a key from an object (used to state that the
top-level search ignores the `choices` entry itself). -/
def eraseKey : List (Str × JValue) → Str → List (Str × JValue)
  | [], _ => []
  | (k, v) :: rest, key =>
    if k = key then eraseKey rest key else (k, v) :: eraseKey rest key

/-- The named sub-object of a `choices` entry is absent, or is a dict
holding none of the searched URL or data fields.  Requiring a dict keeps the
C10 hypothesis inside the region where `field in choice[key]` is a dict
membership test in Python and cannot raise `TypeError`. -/
def subNoFields (c : List (Str × JValue)) (key : Str) : Bool :=
  match jlookup c key with
  | none => true
  | some (JValue.jobj d) =>
    (urlFields ++ possibleFields).all (fun f => (jlookup d f).isNone)
  | some _ => false

/-- The `choices` entry is a dict and neither its `delta` nor its `message`
sub-object (each absent or a dict) holds any searched URL or data field.
Non-dict entries are excluded: on those Python's `"delta" in choice` raises
`TypeError` (absorbed into `StreamingError` by `generate_video`), so the
stream aborts instead of falling through. -/
def choiceNoFields : JValue → Bool
  | JValue.jobj c => subNoFields c ("delta".data) && subNoFields c ("message".data)
  | _ => false

lemma jlookup_eraseKey_self (o : List (Str × JValue)) (k : Str) :
    jlookup (eraseKey o k) k = none := by
  induction o with
  | nil => rfl
  | cons p rest ih =>
    obtain ⟨k', v⟩ := p
    by_cases hk : k' = k
    · simp [eraseKey, hk, ih]
    · simp [eraseKey, hk, jlookup, ih]

lemma jlookup_eraseKey_ne (o : List (Str × JValue)) (k f : Str) (hf : f ≠ k) :
    jlookup (eraseKey o k) f = jlookup o f := by
  induction o with
  | nil => rfl
  | cons p rest ih =>
    obtain ⟨k', v⟩ := p
    by_cases hk : k' = k
    · subst hk
      rw [eraseKey, if_pos rfl, ih, jlookup, if_neg fun h => hf h.symm]
    · by_cases hkf : k' = f
      · subst hkf
        rw [eraseKey, if_neg hk, jlookup, if_pos rfl, jlookup, if_pos rfl]
      · rw [eraseKey, if_neg hk, jlookup, if_neg hkf, ih, jlookup, if_neg hkf]

lemma searchUrlFieldsIn_eraseKey (env : ApiEnv) (o : List (Str × JValue))
    (k : Str) : ∀ fs : List Str, k ∉ fs →
      searchUrlFieldsIn env (eraseKey o k) fs = searchUrlFieldsIn env o fs := by
  intro fs
  induction fs with
  | nil => intro _; rfl
  | cons f rest ih =>
    intro hk
    have hf : f ≠ k := fun h => hk (h ▸ List.mem_cons_self f rest)
    have hrest : k ∉ rest := fun h => hk (List.mem_cons_of_mem f h)
    rcases hof : jlookup o f with _ | v
    · simp only [searchUrlFieldsIn, jlookup_eraseKey_ne o k f hf, hof]
      exact ih hrest
    · rcases hex : extractUrlFromHtml env v with _ | u
      · simp only [searchUrlFieldsIn, jlookup_eraseKey_ne o k f hf, hof, hex]
        exact ih hrest
      · by_cases hu : u = []
        · simp only [searchUrlFieldsIn, jlookup_eraseKey_ne o k f hf, hof, hex,
            if_pos hu]
          exact ih hrest
        · simp only [searchUrlFieldsIn, jlookup_eraseKey_ne o k f hf, hof, hex,
            if_neg hu]

lemma searchDataFieldsIn_eraseKey (o : List (Str × JValue)) (k : Str) :
    ∀ fs : List Str, k ∉ fs →
      searchDataFieldsIn (eraseKey o k) fs = searchDataFieldsIn o fs := by
  intro fs
  induction fs with
  | nil => intro _; rfl
  | cons f rest ih =>
    intro hk
    have hf : f ≠ k := fun h => hk (h ▸ List.mem_cons_self f rest)
    have hrest : k ∉ rest := fun h => hk (List.mem_cons_of_mem f h)
    rcases hof : jlookup o f with _ | v
    · simp only [searchDataFieldsIn, jlookup_eraseKey_ne o k f hf, hof]
      exact ih hrest
    · by_cases hc : f = "content".data
      · simp only [searchDataFieldsIn, jlookup_eraseKey_ne o k f hf, hof,
          if_pos hc]
        exact ih hrest
      · simp only [searchDataFieldsIn, jlookup_eraseKey_ne o k f hf, hof,
          if_neg hc]

lemma searchUrlFieldsIn_none (env : ApiEnv) (d : List (Str × JValue)) :
    ∀ fs : List Str, (∀ f ∈ fs, jlookup d f = none) →
      searchUrlFieldsIn env d fs = none := by
  intro fs
  induction fs with
  | nil => intro _; rfl
  | cons f rest ih =>
    intro h
    simp only [searchUrlFieldsIn, h f (List.mem_cons_self f rest)]
    exact ih fun g hg => h g (List.mem_cons_of_mem f hg)

lemma searchDataFieldsIn_none (d : List (Str × JValue)) :
    ∀ fs : List Str, (∀ f ∈ fs, jlookup d f = none) →
      searchDataFieldsIn d fs = none := by
  intro fs
  induction fs with
  | nil => intro _; rfl
  | cons f rest ih =>
    intro h
    simp only [searchDataFieldsIn, h f (List.mem_cons_self f rest)]
    exact ih fun g hg => h g (List.mem_cons_of_mem f hg)

lemma searchSubObject_none (env : ApiEnv) (d : List (Str × JValue))
    (h : (urlFields ++ possibleFields).all (fun f => (jlookup d f).isNone) = true) :
    searchSubObject env d = none := by
  have h' : ∀ f ∈ urlFields ++ possibleFields, jlookup d f = none := by
    intro f hf
    exact Option.isNone_iff_eq_none.mp (List.all_eq_true.mp h f hf)
  rw [searchSubObject,
    searchUrlFieldsIn_none env d urlFields
      (fun f hf => h' f (List.mem_append_left _ hf))]
  exact searchDataFieldsIn_none d possibleFields
    (fun f hf => h' f (List.mem_append_right _ hf))

lemma searchChoice_none (env : ApiEnv) (ch : JValue)
    (h : choiceNoFields ch = true) : searchChoice env ch = none := by
  cases ch with
  | jobj c =>
    simp only [choiceNoFields, Bool.and_eq_true] at h
    obtain ⟨hd, hm⟩ := h
    rw [searchChoice]
    have hdelta :
        (match jlookup c ("delta".data) with
          | some (JValue.jobj d) => searchSubObject env d
          | _ => none) = none := by
      rw [subNoFields] at hd
      rcases hld : jlookup c ("delta".data) with _ | v
      · rfl
      · cases v with
        | jobj d => rw [hld] at hd; exact searchSubObject_none env d hd
        | jnull => rfl
        | jbool b => rfl
        | jnum n => rfl
        | jstr s => rfl
        | jbytes b => rfl
        | jarr xs => rfl
    rw [hdelta]
    rw [subNoFields] at hm
    rcases hlm : jlookup c ("message".data) with _ | v
    · rfl
    · cases v with
      | jobj m => rw [hlm] at hm; exact searchSubObject_none env m hm
      | jnull => rfl
      | jbool b => rfl
      | jnum n => rfl
      | jstr s => rfl
      | jbytes b => rfl
      | jarr xs => rfl
  | jnull => rfl
  | jbool b => rfl
  | jnum n => rfl
  | jstr s => rfl
  | jbytes b => rfl
  | jarr xs => rfl

lemma searchChoices_none (env : ApiEnv) :
    ∀ cs : List JValue, cs.all choiceNoFields = true →
      searchChoices env cs = none := by
  intro cs
  induction cs with
  | nil => intro _; rfl
  | cons ch rest ih =>
    intro h
    rw [List.all_cons, Bool.and_eq_true] at h
    simp only [searchChoices, searchChoice_none env ch h.1]
    exact ih h.2

/-- C10: when a `choices` array is present whose entries are dicts and none
of their `delta` or `message` sub-objects (each absent or a dict) holds any
searched URL or data field, the extractor still falls through to the
top-level search — extraction behaves exactly as on the same object with the
`choices` entry removed.  (Non-dict entries are excluded by
`choiceNoFields`: there the program raises `TypeError`/`StreamingError`
rather than falling through.) -/
theorem choices_fallthrough_to_top_level (env : ApiEnv)
    (o : List (Str × JValue)) (cs : List JValue)
    (hc : jlookup o ("choices".data) = some (JValue.jarr cs))
    (hall : cs.all choiceNoFields = true) :
    extractVideoFromJson env (JValue.jobj o) =
      extractVideoFromJson env (JValue.jobj (eraseKey o ("choices".data))) := by
  have hurl : ("choices".data : Str) ∉ urlFields := by decide
  have hdata : ("choices".data : Str) ∉ possibleFields := by decide
  simp only [extractVideoFromJson, hc, searchChoices_none env cs hall,
    jlookup_eraseKey_self,
    searchUrlFieldsIn_eraseKey env o ("choices".data) urlFields hurl,
    searchDataFieldsIn_eraseKey o ("choices".data) possibleFields hdata]

/-- Witness for C10: an object whose only `choices` entry has an empty
`delta` still surfaces its top-level `data` field (base64 of `ok`). -/
theorem choices_fallthrough_to_top_level_witness :
    extractVideoFromJson envNone
        (JValue.jobj [("choices".data,
            JValue.jarr [JValue.jobj [("delta".data, JValue.jobj [])]]),
          ("data".data, JValue.jstr ("b2s=".data))]) =
      extractVideoFromJson envNone
        (JValue.jobj (eraseKey
          [("choices".data,
              JValue.jarr [JValue.jobj [("delta".data, JValue.jobj [])]]),
            ("data".data, JValue.jstr ("b2s=".data))] ("choices".data))) :=
  choices_fallthrough_to_top_level envNone
    [("choices".data, JValue.jarr [JValue.jobj [("delta".data, JValue.jobj [])]]),
      ("data".data, JValue.jstr ("b2s=".data))]
    [JValue.jobj [("delta".data, JValue.jobj [])]] rfl (by rfl)

/-- An event whose `choices[0].delta.video` is an undecodable number while
the top level carries a decodable `data` field (base64 of `ok`). -/
def objC2 : List (Str × JValue) :=
  [("choices".data, JValue.jarr
      [JValue.jobj [("delta".data, JValue.jobj [("video".data, JValue.jnum 1)])]]),
    ("data".data, JValue.jstr ("b2s=".data))]

/-- Counterexample to C2 as stated: the candidate field `delta.video` is
present but yields nothing (a number decodes neither as bytes, base64 nor
hex), yet the extractor returns `None` immediately instead of continuing to
the top-level `data` field, which holds decodable content. -/
theorem extractor_not_exhaustive_counterexample :
    extractVideoFromJson envNone (JValue.jobj objC2) = none ∧
    jlookup objC2 ("data".data) = some (JValue.jstr ("b2s=".data)) ∧
    decodeVideoData (JValue.jstr ("b2s=".data)) = some [111, 107] :=
  ⟨rfl, rfl, rfl⟩

/-- C2 amended: a present URL field whose value is not recognized as a URL
is skipped and the search continues; but as soon as a URL is recognized, a
failed dereference (non-200 or transport failure) makes the extractor return
`None` immediately, and as soon as a non-`content` data field is present its
decode result — even `None` — is returned immediately; the search is not
resumed at later fields or locations. -/
theorem extractor_search_amended :
    (∀ env o fs,
      (∀ f v, f ∈ fs → jlookup o f = some v →
        extractUrlFromHtml env v = none ∨ extractUrlFromHtml env v = some []) →
      searchUrlFieldsIn env o fs = none) ∧
    (∀ env o v u,
      jlookup o ("choices".data) = none →
      jlookup o ("url".data) = some v →
      extractUrlFromHtml env v = some u → u ≠ [] →
      env.httpGet u = none →
      extractVideoFromJson env (JValue.jobj o) = none) ∧
    (∀ env o v,
      jlookup o ("choices".data) = none →
      searchUrlFieldsIn env o urlFields = none →
      jlookup o ("video".data) = some v →
      extractVideoFromJson env (JValue.jobj o) = decodeVideoData v) := by
  refine ⟨?_, ?_, ?_⟩
  · intro env o fs
    induction fs with
    | nil => intro _; rfl
    | cons f rest ih =>
      intro h
      rcases hof : jlookup o f with _ | v
      · simp only [searchUrlFieldsIn, hof]
        exact ih fun g w hg hw => h g w (List.mem_cons_of_mem f hg) hw
      · rcases h f v (List.mem_cons_self f rest) hof with hex | hex
        · simp only [searchUrlFieldsIn, hof, hex]
          exact ih fun g w hg hw => h g w (List.mem_cons_of_mem f hg) hw
        · simp only [searchUrlFieldsIn, hof, hex, if_pos rfl]
          exact ih fun g w hg hw => h g w (List.mem_cons_of_mem f hg) hw
  · intro env o v u hc hu hrec hne hget
    simp only [extractVideoFromJson, hc, urlFields, searchUrlFieldsIn, hu, hrec,
      if_neg hne, downloadVideoFromUrl, hget]
  · intro env o v hc hurl hv
    simp only [extractVideoFromJson, hc, hurl, possibleFields,
      searchDataFieldsIn, hv]
    have : ("video".data : Str) ≠ "content".data := by decide
    rw [if_neg this]

/-- Witness for C2 (amended): an object whose only field is an undecodable
`video` yields the decode result of that field, namely `None`, without the
search continuing anywhere else. -/
theorem extractor_search_amended_witness :
    extractVideoFromJson envNone (JValue.jobj [("video".data, JValue.jnum 1)]) =
      decodeVideoData (JValue.jnum 1) :=
  extractor_search_amended.2.2 envNone [("video".data, JValue.jnum 1)]
    (JValue.jnum 1) rfl rfl rfl

lemma brace_not_data (l : Str) (h : startsWith l ("\x7b".data) = true) :
    startsWith l ("data:".data) = false := by
  cases l with
  | nil => simp [startsWith] at h
  | cons c l' =>
    have hc : c = '\x7b' := by simpa [startsWith] using h
    subst hc
    simp [startsWith]

lemma data_not_brace (l : Str) (h : startsWith l ("data:".data) = true) :
    startsWith l ("\x7b".data) = false := by
  cases l with
  | nil => simp [startsWith] at h
  | cons c l' =>
    have hc : c = 'd' := by
      have := h
      simp only [startsWith, Bool.and_eq_true, decide_eq_true_eq] at this
      exact this.1
    subst hc
    simp [startsWith]

/-- The byte chunks of the C1 stream: an undeclared content type whose first
chunk is the text `data: x` with a trailing newline, followed by a second
chunk `hi`. -/
def c1chunk1 : Bytes := [100, 97, 116, 97, 58, 32, 120, 10]

/-- Second chunk of the C1 stream. -/
def c1chunk2 : Bytes := [104, 105]

/-- Counterexample to C1 as stated: the stream is classified Unknown, its
first chunk decodes as text starting with `data:`, the seeded SSE strategy
extracts zero chunks — and the parser returns only the FIRST chunk, not the
concatenation of all chunks: the second chunk, consumed during the failed
text attempt, is lost because the binary fallback re-iterates the already
exhausted chunk iterator. -/
theorem autodetect_fallback_counterexample :
    parseUnknownStream envNone [c1chunk1, c1chunk2] = Except.ok c1chunk1 ∧
    c1chunk1 ≠ c1chunk1 ++ c1chunk2 :=
  ⟨rfl, by decide⟩

/-- C1 amended: for every Unknown-classified stream whose first chunk bears
no container signature and decodes as text starting (after strip) with
`data:` or `{`, if the seeded SSE/NDJSON attempt runs to completion and
extracts zero payload chunks, the parser returns just the first chunk rather
than raising an error; the chunks consumed during the failed text attempt
are discarded, because the fallback re-iterates the exhausted iterator. -/
theorem autodetect_fallback_amended :
    (∀ env first rest textData,
      videoSignatures.any (fun sig => startsWith first sig) = false →
      utf8Decode first = some textData →
      startsWith (strip textData) ("data:".data) = true →
      autoTextLoop (sseHandleLine env) rest textData [] = Except.ok [] →
      parseUnknownStream env (first :: rest) = Except.ok first) ∧
    (∀ env first rest textData,
      videoSignatures.any (fun sig => startsWith first sig) = false →
      utf8Decode first = some textData →
      startsWith (strip textData) ("\x7b".data) = true →
      autoTextLoop (jsonHandleLine env) rest textData [] = Except.ok [] →
      parseUnknownStream env (first :: rest) = Except.ok first) := by
  constructor
  · intro env first rest textData hsig hdec hsse hrun
    simp only [parseUnknownStream, hsig, Bool.false_eq_true, if_false, hdec,
      hsse, if_true, hrun, jsonStage, data_not_brace _ hsse,
      List.flatten_nil, List.append_nil, if_pos rfl]
  · intro env first rest textData hsig hdec hjson hrun
    simp only [parseUnknownStream, hsig, Bool.false_eq_true, if_false, hdec,
      brace_not_data _ hjson, jsonStage, hjson, if_true, hrun, if_pos rfl]

/-- Witness for C1 (amended): a one-chunk Unknown stream whose text starts
with `data:` but yields no payload returns that chunk unchanged. -/
theorem autodetect_fallback_amended_witness :
    parseUnknownStream envNone [c1chunk1] = Except.ok c1chunk1 :=
  autodetect_fallback_amended.1 envNone c1chunk1 [] ("data: x\n".data)
    (by decide) (by rfl) (by decide) (by rfl)

/-- C7: inline decode passes bytes through unchanged, tries base64 before
hex on strings, and yields nothing when both fail; concretely `aabbcc` (valid
hex, invalid base64 — six data characters leave an unpadded quad) decodes via
the hex path, while `deadbeef` (valid for both) decodes via base64. -/
theorem inline_decode_base64_before_hex :
    (∀ b, decodeVideoData (JValue.jbytes b) = some b) ∧
    (∀ s b, b64decodePy s = some b →
      decodeVideoData (JValue.jstr s) = some b) ∧
    (∀ s, b64decodePy s = none →
      decodeVideoData (JValue.jstr s) = bytesFromHex s) ∧
    (∀ s, b64decodePy s = none → bytesFromHex s = none →
      decodeVideoData (JValue.jstr s) = none) ∧
    (b64decodePy ("aabbcc".data) = none ∧
      decodeVideoData (JValue.jstr ("aabbcc".data)) = some [170, 187, 204]) ∧
    (b64decodePy ("deadbeef".data) = some [117, 230, 157, 109, 231, 159] ∧
      bytesFromHex ("deadbeef".data) = some [222, 173, 190, 239] ∧
      decodeVideoData (JValue.jstr ("deadbeef".data)) =
        some [117, 230, 157, 109, 231, 159]) := by
  refine ⟨fun b => rfl, ?_, ?_, ?_, ⟨by decide, by decide⟩,
    ⟨by decide, by decide, by decide⟩⟩
  · intro s b h
    simp only [decodeVideoData, h]
  · intro s h
    simp only [decodeVideoData, h, bytesFromHex]
    rcases fromhexLoop s [] with _ | b <;> rfl
  · intro s h1 h2
    rw [decodeVideoData, h1, h2]

/-- Witness for C7: the hex-but-not-base64 string `aabbcc` falls through to
the hex path. -/
theorem inline_decode_base64_before_hex_witness :
    decodeVideoData (JValue.jstr ("aabbcc".data)) = bytesFromHex ("aabbcc".data) :=
  inline_decode_base64_before_hex.2.2.1 ("aabbcc".data) (by decide)

lemma b64digit_b64char : ∀ n, n < 64 → b64digit (b64char n) = some n := by
  decide

lemma b64char_ne_pad : ∀ n, n < 64 → ¬ b64char n = '=' := by decide

lemma b64char_ascii : ∀ n, n < 64 → (b64char n).toNat ≤ 127 := by decide

lemma b64encode_ascii (bs : Bytes) (h : ∀ b ∈ bs, b < 256) :
    (b64encode bs).all (fun c => c.toNat ≤ 127) = true := by
  induction bs using b64encode.induct with
  | case1 x y z rest ih =>
    have hx := h x (by simp)
    have hy := h y (by simp)
    have hz := h z (by simp)
    simp only [b64encode, List.all_cons, Bool.and_eq_true, decide_eq_true_eq]
    exact ⟨b64char_ascii _ (by omega), b64char_ascii _ (by omega),
      b64char_ascii _ (by omega), b64char_ascii _ (by omega),
      ih fun b hb => h b (by simp [hb])⟩
  | case2 x y =>
    have hx := h x (by simp)
    have hy := h y (by simp)
    simp only [b64encode, List.all_cons, List.all_nil, Bool.and_true,
      Bool.and_eq_true, decide_eq_true_eq]
    exact ⟨b64char_ascii _ (by omega), b64char_ascii _ (by omega),
      b64char_ascii _ (by omega), by decide⟩
  | case3 x =>
    have hx := h x (by simp)
    simp only [b64encode, List.all_cons, List.all_nil, Bool.and_true,
      Bool.and_eq_true, decide_eq_true_eq]
    exact ⟨b64char_ascii _ (by omega), b64char_ascii _ (by omega), by decide,
      by decide⟩
  | case4 => rfl

lemma b64loop_b64encode (bs : Bytes) (h : ∀ b ∈ bs, b < 256) :
    ∀ acc, b64loop (b64encode bs) acc [] 0 = some (acc ++ bs) := by
  induction bs using b64encode.induct with
  | case1 x y z rest ih =>
    intro acc
    have hx := h x (by simp)
    have hy := h y (by simp)
    have hz := h z (by simp)
    have e1 := b64digit_b64char (x / 4) (by omega)
    have e2 := b64digit_b64char ((x % 4) * 16 + y / 16) (by omega)
    have e3 := b64digit_b64char ((y % 16) * 4 + z / 64) (by omega)
    have e4 := b64digit_b64char (z % 64) (by omega)
    have n1 := b64char_ne_pad (x / 4) (by omega)
    have n2 := b64char_ne_pad ((x % 4) * 16 + y / 16) (by omega)
    have n3 := b64char_ne_pad ((y % 16) * 4 + z / 64) (by omega)
    have n4 := b64char_ne_pad (z % 64) (by omega)
    have hb1 : x / 4 * 4 + ((x % 4) * 16 + y / 16) / 16 = x := by omega
    have hb2 : ((x % 4) * 16 + y / 16) % 16 * 16 + ((y % 16) * 4 + z / 64) / 4 = y := by
      omega
    have hb3 : ((y % 16) * 4 + z / 64) % 4 * 64 + z % 64 = z := by omega
    simp only [b64encode, b64loop, if_neg n1, if_neg n2, if_neg n3, if_neg n4,
      e1, e2, e3, e4, List.nil_append, List.cons_append, List.singleton_append,
      hb1, hb2, hb3]
    rw [ih (fun b hb => h b (by simp [hb])) (acc ++ [x, y, z])]
    simp
  | case2 x y =>
    intro acc
    have hx := h x (by simp)
    have hy := h y (by simp)
    have e1 := b64digit_b64char (x / 4) (by omega)
    have e2 := b64digit_b64char ((x % 4) * 16 + y / 16) (by omega)
    have e3 := b64digit_b64char ((y % 16) * 4) (by omega)
    have n1 := b64char_ne_pad (x / 4) (by omega)
    have n2 := b64char_ne_pad ((x % 4) * 16 + y / 16) (by omega)
    have n3 := b64char_ne_pad ((y % 16) * 4) (by omega)
    have hb1 : x / 4 * 4 + ((x % 4) * 16 + y / 16) / 16 = x := by omega
    have hb2 : ((x % 4) * 16 + y / 16) % 16 * 16 + (y % 16) * 4 / 4 = y := by omega
    simp [b64encode, b64loop, if_neg n1, if_neg n2, if_neg n3, e1, e2, e3,
      b64flush]
    omega
  | case3 x =>
    intro acc
    have hx := h x (by simp)
    have e1 := b64digit_b64char (x / 4) (by omega)
    have e2 := b64digit_b64char ((x % 4) * 16) (by omega)
    have n1 := b64char_ne_pad (x / 4) (by omega)
    have n2 := b64char_ne_pad ((x % 4) * 16) (by omega)
    have hb1 : x / 4 * 4 + (x % 4) * 16 / 16 = x := by omega
    simp [b64encode, b64loop, if_neg n1, if_neg n2, e1, e2, b64flush]
    omega
  | case4 => intro acc; simp [b64encode, b64loop]

/-- The base64-encoding step of `encode_image_to_base64`
(`src/encoder.py` lines 48–49): `base64.b64encode(image_data)`. -/
def encodeImageBase64Step (imageData : Bytes) : Str := b64encode imageData

/-- C8: encoding any byte sequence with the image encoder's base64 step and
feeding the result to the inline decoder recovers the original bytes exactly
(through the base64 path). -/
theorem base64_roundtrip (bs : Bytes) (h : ∀ b ∈ bs, b < 256) :
    decodeVideoData (JValue.jstr (encodeImageBase64Step bs)) = some bs := by
  simp only [encodeImageBase64Step, decodeVideoData, b64decodePy,
    b64encode_ascii bs h, if_true, b64loop_b64encode bs h [], List.nil_append]

/-- Witness for C8: the bytes of `hi` survive the round trip. -/
theorem base64_roundtrip_witness :
    decodeVideoData (JValue.jstr (encodeImageBase64Step [104, 105])) =
      some [104, 105] :=
  base64_roundtrip [104, 105] (by decide)
